import Mathlib

/-!
# Verification of the `simpleplex.model.podcasts` data model

A shallow embedding of `src/simpleplex/model/podcasts.py`: the `podcasts`
table row type, the slug validation hook, the `author` composite, and the
two deferred episode counters (`media_count`, `published_media_count`),
together with proofs of the specified properties.

Parts of the repository referenced by this file but not present under
`src/` (`slugify`, `Author`, `MediaStatus`, the media table, and the
commit-time unique constraint of the storage layer) are modelled from the
specification; each such definition says so in its doc comment.
-/

namespace Simpleplex

/-- Modelled from the spec: `MediaStatus` (from `simpleplex.model.media`,
not under `src/`) is a status bitmask where each bit flags an independent
state.  `int(MediaStatus('trash'))` is the trash bit. -/
def TRASH : Nat := 1

/-- Modelled from the spec: the publish bit of the status bitmask,
`int(MediaStatus('publish'))`, a bit independent of `TRASH`. -/
def PUBLISH : Nat := 2

/-- Modelled from the spec: the draft bit of the status bitmask, a bit
independent of `TRASH` and `PUBLISH`. -/
def DRAFT : Nat := 4

/-- Modelled from the spec: one row of the `media` table (the table itself
is in `simpleplex.model.media`, not under `src/`): an integer id, an
integer `podcast_id` foreign key and an integer `status` bitmask column. -/
structure MediaRow where
  id : Nat
  podcast_id : Nat
  status : Nat
deriving Repr, DecidableEq

/-- One row of the `podcasts` table, with each column of the table
declaration mapped to a field.  Timestamps are modelled as naturals,
nullable columns as `Option`, and the tri-state `explicit` column
(`Boolean, default=None`) as `Option Bool`. -/
structure Podcast where
  id : Nat
  slug : String
  created_on : Nat
  modified_on : Nat
  title : String
  subtitle : Option String := none
  description : Option String := none
  category : Option String := none
  author_name : String
  author_email : String
  explicit : Option Bool := none
  copyright : Option String := none
  itunes_url : Option String := none
  feedburner_url : Option String := none
deriving Repr, DecidableEq

/-- The `media_count` column property: `count(media.c.id)` over the rows
with `media.c.podcast_id == podcasts.c.id` and
`media.c.status.op('&')(int(MediaStatus('trash'))) == 0`. -/
def media_count (p : Podcast) (rows : List MediaRow) : Nat :=
  (rows.filter (fun m =>
    m.podcast_id == p.id &&
    m.status &&& TRASH == 0)).length

/-- The `published_media_count` column property: `count(media.c.id)` over
the rows with `media.c.podcast_id == podcasts.c.id`,
`status & int(MediaStatus('publish')) == int(MediaStatus('publish'))` and
`status & int(MediaStatus('trash')) == 0`. -/
def published_media_count (p : Podcast) (rows : List MediaRow) : Nat :=
  (rows.filter (fun m =>
    m.podcast_id == p.id &&
    m.status &&& PUBLISH == PUBLISH &&
    m.status &&& TRASH == 0)).length

/-- A character is URL-safe for a slug: a lowercase latin letter, a
decimal digit, or the separator `-`. -/
def urlSafe (c : Char) : Bool :=
  (97 ≤ c.toNat && c.toNat ≤ 122) || (48 ≤ c.toNat && c.toNat ≤ 57) || c == '-'

/-- Modelled from the spec: the per-character step of `slugify` (from
`simpleplex.model`, not under `src/`): lower-case the character, keep it
if it is then a lowercase letter or digit, and turn any other
(non-alphanumeric) character into the separator `-`. -/
def normChar (c : Char) : Char :=
  if 97 ≤ c.toNat ∧ c.toNat ≤ 122 then c
  else if 48 ≤ c.toNat ∧ c.toNat ≤ 57 then c
  else if 65 ≤ c.toNat ∧ c.toNat ≤ 90 then Char.ofNat (c.toNat + 32)
  else '-'

/-- Modelled from the spec: the separator-collapsing pass of `slugify`:
each run of consecutive separators is reduced to a single `-`. -/
def collapseDashes : List Char → List Char
  | [] => []
  | [c] => [c]
  | a :: b :: rest =>
    if a = '-' ∧ b = '-' then collapseDashes (b :: rest)
    else a :: collapseDashes (b :: rest)

/-- Modelled from the spec: `slugify` (from `simpleplex.model`, not under
`src/`): produce a URL-safe, lower-case, separator-normalized string of at
most 50 characters. -/
def slugify (s : String) : String :=
  String.mk (List.take 50 (collapseDashes (s.data.map normChar)))

/-- The `validates('slug')` hook on `Podcast`: every value assigned to the
slug attribute is passed through `slugify`. -/
def validate_slug (slug : String) : String :=
  slugify slug

/-- No two consecutive characters of the list are both the separator. -/
def noDoubleDash : List Char → Bool
  | [] => true
  | [_] => true
  | a :: b :: rest => !(a == '-' && b == '-') && noDoubleDash (b :: rest)

/-- Modelled from the spec: `Author` (from `simpleplex.model.authors`, not
under `src/`): a value object pairing a name with an email address, with
value equality — two instances are equal iff both fields match. -/
structure Author where
  name : String
  email : String
deriving Repr, DecidableEq

/-- Reading the `author` composite: `composite(Author,
podcasts.c.author_name, podcasts.c.author_email)` builds the value object
from the two backing columns. -/
def Podcast.author (p : Podcast) : Author :=
  { name := p.author_name, email := p.author_email }

/-- Writing the `author` composite: the value object is decomposed back
into the two backing columns; no other column is touched. -/
def Podcast.setAuthor (p : Podcast) (a : Author) : Podcast :=
  { p with author_name := a.name, author_email := a.email }

/-- Assignment to the slug attribute: the `validates('slug')` hook
rewrites every assigned value with `slugify` before it is stored. -/
def Podcast.setSlug (p : Podcast) (s : String) : Podcast :=
  { p with slug := validate_slug s }

/-- Assignment to the explicit attribute: a plain mapped column of the
tri-state type `Option Bool`. -/
def Podcast.setExplicit (p : Podcast) (v : Option Bool) : Podcast :=
  { p with explicit := v }

/-- The meaning the class docstring gives the tri-state `explicit`
column: `True` means 'yes', `None` means no advisory displays, `False`
means 'clean'. -/
def explicitMeaning : Option Bool → String
  | some true => "yes"
  | none => "no advisory"
  | some false => "clean"

/-- Creation of a Podcast row: application code supplies id, slug seed,
title and author; the column defaults fill `created_on` and `modified_on`
(`default=datetime.now`), leave `explicit` at its `default=None`, and
leave every nullable column NULL.  The slug seed passes through the
`validates('slug')` hook exactly as on every later assignment. -/
def mkPodcast (i now : Nat) (slugSeed ttl aname aemail : String) : Podcast :=
  { id := i, slug := validate_slug slugSeed, created_on := now,
    modified_on := now, title := ttl,
    author_name := aname, author_email := aemail }

/-- The slugs of the rows are pairwise distinct. -/
def slugsUnique : List Podcast → Bool
  | [] => true
  | p :: rest => !(rest.any (fun q => q.slug == p.slug)) && slugsUnique rest

/-- Modelled from the spec: the storage layer's commit (not under
`src/`).  The unique constraint on `podcasts.c.slug` is checked only
here: committing a row set holding two equal slugs surfaces a
constraint-violation failure; attribute assignment never checks it. -/
def commit (rows : List Podcast) : Except String (List Podcast) :=
  if slugsUnique rows then Except.ok rows
  else Except.error "IntegrityError: UNIQUE constraint failed: podcasts.slug"

/-- A concrete Podcast row used to instantiate universally quantified
theorems on concrete inputs. -/
def samplePodcast : Podcast :=
  { id := 1, slug := "s", created_on := 0, modified_on := 0, title := "t",
    author_name := "a", author_email := "e" }

end Simpleplex

namespace Simpleplex

theorem char_toNat_ofNat_valid (n : Nat) (h : n.isValidChar) :
    (Char.ofNat n).toNat = n := by
  rw [Char.ofNat, dif_pos h]
  rfl

theorem urlSafe_normChar (c : Char) : urlSafe (normChar c) = true := by
  rw [normChar]
  split
  · rename_i h
    simp only [urlSafe, Bool.or_eq_true, Bool.and_eq_true, decide_eq_true_eq]
    exact Or.inl (Or.inl ⟨h.1, h.2⟩)
  · split
    · rename_i h
      simp only [urlSafe, Bool.or_eq_true, Bool.and_eq_true, decide_eq_true_eq]
      exact Or.inl (Or.inr ⟨h.1, h.2⟩)
    · split
      · rename_i h
        have hv : (c.toNat + 32).isValidChar := by
          refine Or.inl ?_
          omega
        simp only [urlSafe, Bool.or_eq_true, Bool.and_eq_true,
          decide_eq_true_eq, char_toNat_ofNat_valid _ hv]
        exact Or.inl (Or.inl ⟨by omega, by omega⟩)
      · rfl

theorem normChar_id_of_urlSafe (c : Char) (h : urlSafe c = true) :
    normChar c = c := by
  simp only [urlSafe, Bool.or_eq_true, Bool.and_eq_true, decide_eq_true_eq,
    beq_iff_eq] at h
  rw [normChar]
  rcases h with (⟨h1, h2⟩ | ⟨h1, h2⟩) | h3
  · rw [if_pos ⟨h1, h2⟩]
  · rw [if_neg (by omega), if_pos ⟨h1, h2⟩]
  · subst h3
    rfl

theorem map_normChar_id (l : List Char) (h : ∀ c ∈ l, urlSafe c = true) :
    l.map normChar = l := by
  induction l with
  | nil => rfl
  | cons a t ih =>
    simp only [List.map_cons]
    rw [normChar_id_of_urlSafe a (h a (List.mem_cons_self a t)),
      ih (fun c hc => h c (List.mem_cons_of_mem a hc))]

theorem mem_collapseDashes (c : Char) :
    ∀ l : List Char, c ∈ collapseDashes l → c ∈ l := by
  intro l
  induction l with
  | nil => simp [collapseDashes]
  | cons a t ih =>
    cases t with
    | nil => simp [collapseDashes]
    | cons b rest =>
      rw [collapseDashes]
      split
      · intro hc
        exact List.mem_cons_of_mem a (ih hc)
      · intro hc
        rcases List.mem_cons.mp hc with h | h
        · exact h ▸ List.mem_cons_self a _
        · exact List.mem_cons_of_mem a (ih h)

theorem collapseDashes_head (b : Char) (rest : List Char) :
    (collapseDashes (b :: rest)).head? = some b := by
  induction rest generalizing b with
  | nil => rfl
  | cons c r ih =>
    rw [collapseDashes]
    split
    · rename_i h
      rw [ih c, h.1, h.2]
    · rfl

theorem noDoubleDash_collapseDashes (l : List Char) :
    noDoubleDash (collapseDashes l) = true := by
  induction l with
  | nil => rfl
  | cons a t ih =>
    cases t with
    | nil => rfl
    | cons b rest =>
      rw [collapseDashes]
      split
      · exact ih
      · rename_i hab
        have hhd := collapseDashes_head b rest
        cases hL : collapseDashes (b :: rest) with
        | nil => rw [hL] at hhd; exact absurd hhd (by simp)
        | cons x xs =>
          rw [hL] at hhd ih
          simp only [List.head?] at hhd
          have hxb : x = b := by injection hhd
          subst hxb
          rw [noDoubleDash, Bool.and_eq_true, ih]
          refine ⟨?_, rfl⟩
          by_cases hA : a = '-'
          · have hx : ¬ x = '-' := fun hB => hab ⟨hA, hB⟩
            simp [hx]
          · simp [hA]

theorem collapseDashes_id_of_noDoubleDash (l : List Char)
    (h : noDoubleDash l = true) : collapseDashes l = l := by
  induction l with
  | nil => rfl
  | cons a t ih =>
    cases t with
    | nil => rfl
    | cons b rest =>
      rw [noDoubleDash, Bool.and_eq_true] at h
      rw [collapseDashes, if_neg ?_, ih h.2]
      intro hab
      rw [hab.1, hab.2] at h
      simp at h

theorem noDoubleDash_take (n : Nat) :
    ∀ l : List Char, noDoubleDash l = true → noDoubleDash (l.take n) = true := by
  induction n with
  | zero => intro l _; rfl
  | succ k ih =>
    intro l hl
    cases l with
    | nil => rfl
    | cons a t =>
      cases t with
      | nil => cases k <;> rfl
      | cons b rest =>
        rw [noDoubleDash, Bool.and_eq_true] at hl
        rw [List.take_succ_cons]
        cases k with
        | zero => rfl
        | succ j =>
          rw [List.take_succ_cons, noDoubleDash, Bool.and_eq_true]
          have := ih (b :: rest) hl.2
          rw [List.take_succ_cons] at this
          exact ⟨hl.1, this⟩

theorem slugify_data_urlSafe (s : String) :
    ∀ c ∈ (slugify s).data, urlSafe c = true := by
  intro c hc
  rw [slugify] at hc
  have h1 : c ∈ collapseDashes (s.data.map normChar) :=
    List.take_subset 50 _ hc
  have h2 : c ∈ s.data.map normChar := mem_collapseDashes c _ h1
  rcases List.mem_map.mp h2 with ⟨d, _, hd⟩
  rw [← hd]
  exact urlSafe_normChar d

/-- C5: the slug normalizer is idempotent, its output contains only
URL-safe characters, and its output is at most 50 characters long. -/
theorem slugify_idempotent_safe_short (s : String) :
    slugify (slugify s) = slugify s ∧
    (∀ c ∈ (slugify s).data, urlSafe c = true) ∧
    (slugify s).length ≤ 50 := by
  refine ⟨?_, slugify_data_urlSafe s, ?_⟩
  · have hsafe := slugify_data_urlSafe s
    have hndd : noDoubleDash (slugify s).data = true := by
      rw [slugify]
      exact noDoubleDash_take 50 _ (noDoubleDash_collapseDashes _)
    have hlen : (slugify s).data.length ≤ 50 := by
      rw [slugify]
      simp
    conv_lhs => rw [slugify]
    rw [map_normChar_id _ hsafe, collapseDashes_id_of_noDoubleDash _ hndd,
      List.take_of_length_le hlen, slugify]
  · rw [slugify]
    show (List.take 50 (collapseDashes (s.data.map normChar))).length ≤ 50
    simp

/-- C1: for every Podcast and every set of Media rows,
`published_media_count` equals the number of Media rows whose `podcast_id`
equals this Podcast's `id` and whose status bitmask satisfies both
`(status & PUBLISH) == PUBLISH` and `(status & TRASH) == 0`. -/
theorem published_media_count_correct (p : Podcast) (rows : List MediaRow) :
    published_media_count p rows =
      rows.countP (fun m =>
        m.podcast_id == p.id &&
        (m.status &&& PUBLISH == PUBLISH && m.status &&& TRASH == 0)) := by
  rw [List.countP_eq_length_filter, published_media_count]
  congr 1
  apply List.filter_congr
  intro m _
  cases h1 : (m.podcast_id == p.id) <;>
    cases h2 : (m.status &&& PUBLISH == PUBLISH) <;>
    cases h3 : (m.status &&& TRASH == 0) <;> rfl

/-- C2: for every Podcast and every set of Media rows, `media_count`
equals the number of Media rows whose `podcast_id` equals this Podcast's
`id` and whose status bitmask satisfies `(status & TRASH) == 0`,
regardless of any other status bits. -/
theorem media_count_correct (p : Podcast) (rows : List MediaRow) :
    media_count p rows =
      rows.countP (fun m =>
        m.podcast_id == p.id && m.status &&& TRASH == 0) := by
  rw [List.countP_eq_length_filter, media_count]

/-- C3: for every Podcast and every set of Media rows with any status
bitmask values, `media_count ≥ published_media_count ≥ 0`. -/
theorem media_count_ge_published_media_count (p : Podcast)
    (rows : List MediaRow) :
    published_media_count p rows ≤ media_count p rows ∧
    0 ≤ published_media_count p rows := by
  refine ⟨?_, Nat.zero_le _⟩
  rw [media_count, published_media_count,
    ← List.countP_eq_length_filter, ← List.countP_eq_length_filter]
  apply List.countP_mono_left
  intro m _ h
  simp only [Bool.and_assoc, Bool.and_eq_true] at h ⊢
  exact ⟨h.1, h.2.2⟩

/-- C4: every Media row whose status bitmask has both the publish bit and
the trash bit set is counted by neither `media_count` nor
`published_media_count` of its owning Podcast: prepending such a row to
the row set leaves both counters unchanged. -/
theorem trashed_published_row_counted_by_neither (p : Podcast)
    (m : MediaRow) (rows : List MediaRow)
    (_hpub : m.status &&& PUBLISH = PUBLISH)
    (htrash : m.status &&& TRASH = TRASH) :
    media_count p (m :: rows) = media_count p rows ∧
    published_media_count p (m :: rows) = published_media_count p rows := by
  have hTne : (m.status &&& TRASH == 0) = false := by
    rw [htrash]; rfl
  constructor
  · rw [media_count, media_count, List.filter_cons_of_neg]
    simp [hTne]
  · rw [published_media_count, published_media_count,
      List.filter_cons_of_neg]
    simp [hTne]

/-- Concrete instantiation of C4: a row with status `PUBLISH ||| TRASH = 3`
satisfies both bitmask hypotheses and is counted by neither counter. -/
theorem trashed_published_row_counted_by_neither_witness :
    media_count samplePodcast [{ id := 7, podcast_id := 1, status := 3 }] =
      media_count samplePodcast [] ∧
    published_media_count samplePodcast
        [{ id := 7, podcast_id := 1, status := 3 }] =
      published_media_count samplePodcast [] :=
  trashed_published_row_counted_by_neither samplePodcast
    { id := 7, podcast_id := 1, status := 3 } [] (by decide) (by decide)

/-- C6: every string assigned to the slug attribute — at the initial
assignment during creation or by any later assignment — is stored as
`slugify` of it; both operations are total functions of the input string,
so no error is raised for empty or already-valid input. -/
theorem slug_assignment_stores_slugify (p : Podcast) (i now : Nat)
    (s ttl an ae : String) :
    (p.setSlug s).slug = slugify s ∧
    (mkPodcast i now s ttl an ae).slug = slugify s :=
  ⟨rfl, rfl⟩

/-- C7: the author composite round-trips — setting a value object and
re-reading yields an equal composite — two Podcasts have equal author
composites iff their `author_name` and `author_email` columns both match,
and composite equality is value equality on the two fields. -/
theorem author_composite_roundtrip_value_eq (p q : Podcast)
    (a b : Author) :
    (p.setAuthor a).author = a ∧
    (p.author = q.author ↔
      p.author_name = q.author_name ∧ p.author_email = q.author_email) ∧
    (a = b ↔ a.name = b.name ∧ a.email = b.email) := by
  refine ⟨rfl, ⟨?_, ?_⟩, ⟨?_, ?_⟩⟩
  · intro h
    exact ⟨congrArg Author.name h, congrArg Author.email h⟩
  · intro h
    rw [Podcast.author, Podcast.author, h.1, h.2]
  · intro h
    exact ⟨congrArg Author.name h, congrArg Author.email h⟩
  · intro h
    cases a
    cases b
    cases h.1
    cases h.2
    rfl

/-- C8: the explicit attribute is tri-state, not boolean: creation with no
explicit value set leaves the absent/default state (no advisory), setting
true yields 'yes', setting false yields 'clean', and the three states are
pairwise distinguishable — absent is never collapsed into false. -/
theorem explicit_tri_state (p : Podcast) (i now : Nat)
    (s ttl an ae : String) :
    (mkPodcast i now s ttl an ae).explicit = none ∧
    (p.setExplicit (some true)).explicit = some true ∧
    (p.setExplicit (some false)).explicit = some false ∧
    explicitMeaning (some true) = "yes" ∧
    explicitMeaning none = "no advisory" ∧
    explicitMeaning (some false) = "clean" ∧
    (none : Option Bool) ≠ some true ∧
    (none : Option Bool) ≠ some false ∧
    (some true : Option Bool) ≠ some false :=
  ⟨rfl, rfl, rfl, rfl, rfl, rfl, by decide, by decide, by decide⟩

/-- C9: two Podcasts whose slug inputs normalize to the same value store
those normalized slugs without error at assignment time, and committing
them together fails with a uniqueness error. -/
theorem duplicate_slug_fails_at_commit (p q : Podcast) (s1 s2 : String)
    (h : slugify s1 = slugify s2) :
    (p.setSlug s1).slug = slugify s1 ∧
    (q.setSlug s2).slug = slugify s2 ∧
    commit [p.setSlug s1, q.setSlug s2] =
      Except.error
        "IntegrityError: UNIQUE constraint failed: podcasts.slug" := by
  refine ⟨rfl, rfl, ?_⟩
  have hfalse : slugsUnique [p.setSlug s1, q.setSlug s2] = false := by
    simp [slugsUnique, Podcast.setSlug, validate_slug, h]
  simp [commit, hfalse]

/-- Concrete instantiation of C9: "Hello World" and "hello-world" both
normalize to "hello-world", and committing the two rows fails. -/
theorem duplicate_slug_fails_at_commit_witness :
    (samplePodcast.setSlug "Hello World").slug = slugify "Hello World" ∧
    ((mkPodcast 2 0 "x" "t" "a" "e").setSlug "hello-world").slug =
      slugify "hello-world" ∧
    commit [samplePodcast.setSlug "Hello World",
        (mkPodcast 2 0 "x" "t" "a" "e").setSlug "hello-world"] =
      Except.error
        "IntegrityError: UNIQUE constraint failed: podcasts.slug" :=
  duplicate_slug_fails_at_commit samplePodcast (mkPodcast 2 0 "x" "t" "a" "e")
    "Hello World" "hello-world" (by decide)

/-- C10: writing the author composite modifies only the `author_name` and
`author_email` columns; every other mapped field of the Podcast is left
unchanged by the assignment. -/
theorem setAuthor_frame (p : Podcast) (a : Author) :
    (p.setAuthor a).id = p.id ∧
    (p.setAuthor a).slug = p.slug ∧
    (p.setAuthor a).created_on = p.created_on ∧
    (p.setAuthor a).title = p.title ∧
    (p.setAuthor a).subtitle = p.subtitle ∧
    (p.setAuthor a).description = p.description ∧
    (p.setAuthor a).category = p.category ∧
    (p.setAuthor a).explicit = p.explicit ∧
    (p.setAuthor a).copyright = p.copyright ∧
    (p.setAuthor a).itunes_url = p.itunes_url ∧
    (p.setAuthor a).feedburner_url = p.feedburner_url :=
  ⟨rfl, rfl, rfl, rfl, rfl, rfl, rfl, rfl, rfl, rfl, rfl⟩

end Simpleplex
